import Mathlib

/-!
Shallow embedding of the incremental ingestion engine
(`IncrementalIngestionEngine`): the tick dispatcher `handleNextAction`, the
burst loop `ingestOneBurst` and the per-page checkpoint/delta routine `mark`.
External collaborators (the source adapter, the persistent record store and
the target store) are parameters of the model; the burst loop is a fuelled
recursion over the adapter's `next` function producing the ordered trace of
persisted mark records and applied target-store mutations, together with the
burst's outcome (returned `done` flag, thrown error, or fuel exhaustion,
the last being a model artifact that theorems exclude by hypothesis).
-/

namespace IncrementalEngine

/-- Metadata of a catalog entity: a name plus the key/value pairs of
`entity.metadata.annotations` (a JS object: one binding per key). -/
structure EntityMetadata where
  name : String
  annotations : List (String × String)
deriving DecidableEq

/-- A catalog entity (`deferred.entity`): kind plus metadata. -/
structure Entity where
  kind : String
  metadata : EntityMetadata
deriving DecidableEq

/-- A deferred entity as handed to the engine by the source adapter:
the entity plus an optional location key. -/
structure DeferredEntity where
  entity : Entity
  locationKey : Option String
deriving DecidableEq

/-- Modelled from the spec: the provenance-marker key
(`INCREMENTAL_ENTITY_PROVIDER_ANNOTATION`, imported by the engine from
`../types`, which is outside the given sources). Its exact string value is
immaterial to the engine's logic; only the binding of this key to the
provider name matters. -/
def PROVIDER_MARKER_KEY : String := "backstage.io/incremental-provider-name"

/-- JS object spread followed by writing key `k`: every previous binding of
`k` is dropped and the single binding `(k, v)` wins, so a later lookup of
`k` yields `v`. -/
def setAnn (l : List (String × String)) (k v : String) : List (String × String) :=
  l.filter (fun p => p.1 ≠ k) ++ [(k, v)]

/-- The provenance tagging applied by `mark` to each added entity: the
entity's annotations gain the binding `PROVIDER_MARKER_KEY ↦ pname`. -/
def tagEntity (pname : String) (d : DeferredEntity) : DeferredEntity :=
  { d with
    entity := { d.entity with
      metadata := { d.entity.metadata with
        annotations := setAnn d.entity.metadata.annotations PROVIDER_MARKER_KEY pname } } }

/-- One target-store mutation, as passed to `connection.applyMutation`. -/
structure Mutation where
  type : String
  added : List DeferredEntity
  removed : List DeferredEntity
deriving DecidableEq

/-- The delta built by `IncrementalIngestionEngine.mark` for one page:
`added` is the page's entities each tagged with the provider name, and
`removed` is the result `removedRes` of `manager.computeRemoved` except on a
`done` page, where it is `[]`. -/
def markMutation (pname : String) (removedRes : List DeferredEntity)
    (entities : List DeferredEntity) (done : Bool) : Mutation :=
  { type := "delta"
  , added := entities.map (tagEntity pname)
  , removed := if done then [] else removedRes }

/-- One page returned by the source adapter's `next(context, cursor)`:
entities, the new opaque cursor, and the `done` flag. The cursor type `κ`
is a parameter (opaque, producer-defined). -/
structure Page (κ : Type) where
  entities : List DeferredEntity
  cursor : Option κ
  done : Bool
deriving DecidableEq

/-- A persisted progress mark for one page (`manager.createMark` plus
`createMarkEntities`): sequence number, the page's new cursor, and the
page's entities. -/
structure MarkRecord (κ : Type) where
  sequence : Nat
  cursor : Option κ
  entities : List DeferredEntity
deriving DecidableEq

/-- The outcome of a burst: normal return with the final `done` flag, a
thrown error (`err`), or fuel exhaustion (model artifact: the source loop
has no fuel; theorems exclude `fuelOut` by hypothesis). -/
inductive BurstRes where
  | ok (done : Bool)
  | err
  | fuelOut
deriving DecidableEq

/-- The mark record persisted for the page fetched at loop counter `i` of a
burst whose first mark has sequence `seq0`: `mark` is called with
`sequence` and the page's own (new) cursor and entities. -/
def mkMark {κ : Type} (seq0 i : Nat) (p : Page κ) : MarkRecord κ :=
  { sequence := seq0 + i, cursor := p.cursor, entities := p.entities }

/-- The burst loop of `ingestOneBurst`, as a fuelled recursion. At counter
`i` with current cursor `c` it fetches `next c`, persists that page's mark,
and then — inside `mark`, after `createMark` but before `applyMutation` —
fails when `mutFail i` is true (modelling a target-store failure: the mark
is persisted, the mutation is not, the burst throws). Otherwise the
mutation is applied and the loop stops when the abort signal reads true
(`sig i`) or the page is `done`, returning the page's `done` flag; else it
continues with the page's cursor. `removedQ i` is the value returned by
`manager.computeRemoved` during the `i`-th call to `mark`. -/
def burstGo {κ : Type} (pname : String) (seq0 : Nat)
    (removedQ : Nat → List DeferredEntity) (mutFail sig : Nat → Bool)
    (next : Option κ → Page κ) :
    Nat → Nat → Option κ → List (MarkRecord κ) × List Mutation × BurstRes
  | 0, _, _ => ([], [], .fuelOut)
  | fuel + 1, i, c =>
    if mutFail i then
      ([mkMark seq0 i (next c)], [], .err)
    else if sig i || (next c).done then
      ([mkMark seq0 i (next c)],
        [markMutation pname (removedQ i) (next c).entities (next c).done],
        .ok (next c).done)
    else
      (mkMark seq0 i (next c) ::
          (burstGo pname seq0 removedQ mutFail sig next fuel (i + 1) (next c).cursor).1,
        markMutation pname (removedQ i) (next c).entities (next c).done ::
          (burstGo pname seq0 removedQ mutFail sig next fuel (i + 1) (next c).cursor).2.1,
        (burstGo pname seq0 removedQ mutFail sig next fuel (i + 1) (next c).cursor).2.2)

/-- The starting sequence of a burst: `lastMark ? lastMark.sequence + 1 : 0`. -/
def startSeq {κ : Type} (lastMark : Option (MarkRecord κ)) : Nat :=
  match lastMark with
  | some m => m.sequence + 1
  | none => 0

/-- The starting cursor of a burst: `lastMark ? lastMark.cursor : undefined`. -/
def startCursor {κ : Type} (lastMark : Option (MarkRecord κ)) : Option κ :=
  match lastMark with
  | some m => m.cursor
  | none => none

/-- `IncrementalIngestionEngine.ingestOneBurst`: load the last mark
(`lastMark`, the store's `getLastMark` result), derive the starting cursor
and sequence, and run the burst loop from counter 0. -/
def ingestOneBurst {κ : Type} (pname : String) (lastMark : Option (MarkRecord κ))
    (removedQ : Nat → List DeferredEntity) (mutFail sig : Nat → Bool)
    (next : Option κ → Page κ) (fuel : Nat) :
    List (MarkRecord κ) × List Mutation × BurstRes :=
  burstGo pname (startSeq lastMark) removedQ mutFail sig next fuel 0 (startCursor lastMark)

/-- The page the adapter hands back on the `j`-th fetch when the burst
starts from cursor `c` and each fetch uses the previous page's cursor. -/
def pageSeq {κ : Type} (next : Option κ → Page κ) (c : Option κ) : Nat → Page κ
  | 0 => next c
  | j + 1 => next (pageSeq next c j).cursor

/-- A thrown error value: a kind/class name (`error.name` in JS) and an
optional message (`error.message`; `none` models a value without a message
property). The engine only ever inspects `message`. -/
structure Err where
  name : String
  message : Option String
deriving DecidableEq

/-- A call to the persistent record store issued while handling one tick,
in order. Arguments mirror the store interface. -/
inductive Eff where
  | clearFinishedIngestions (providerName : String)
  | setProviderComplete (ingestionId : String)
  | setProviderBursting (ingestionId : String)
  | setProviderResting (ingestionId : String) (restLength : Nat)
  | setProviderInterstitial (ingestionId : String)
  | setProviderCanceling (ingestionId : String) (reason : String)
  | setProviderBackoff (ingestionId : String) (attempts : Nat) (error : Err) (delayMs : Nat)
  | setProviderIngesting (ingestionId : String)
  | setProviderCanceled (ingestionId : String)
deriving DecidableEq

/-- The record returned by `getCurrentAction`: ingestion id, the persisted
next action (a string: `rest`, `ingest`, `backoff`, `cancel`, or anything
else for the defensive default branch), attempts and next-action-at (ms). -/
structure CurrentAction where
  ingestionId : String
  nextAction : String
  attempts : Nat
  nextActionAt : Nat
deriving DecidableEq

/-- The default backoff table of the constructor, in milliseconds:
1 minute, 5 minutes, 30 minutes, 3 hours. -/
def defaultBackoff : List Nat := [60000, 300000, 1800000, 10800000]

/-- The constructor's table selection: `options.backoff ?? default`. -/
def mkBackoff (supplied : Option (List Nat)) : List Nat :=
  supplied.getD defaultBackoff

/-- The delay computed in the backoff branch:
`Duration.fromObject(backoff[Math.min(backoff.length - 1, attempts)])` in
milliseconds (out-of-range reads default to 0, reachable only for an empty
table). -/
def backoffDelay (table : List Nat) (attempts : Nat) : Nat :=
  table.getD (min (table.length - 1) attempts) 0

/-- One evaluation of `handleNextAction`, given the already-loaded current
action record `rec`, the current time `now` (ms), and the outcome `bres`
the burst produces if the `ingest` branch runs it (`Except.error e` models
`ingestOneBurst` throwing `e`; `Except.ok done` a normal return). The
result is the ordered list of store transitions the tick issues. -/
def handleNextAction (backoff : List Nat) (restLength : Nat) (pname : String)
    (rec : CurrentAction) (now : Nat) (bres : Except Err Bool) : List Eff :=
  match rec.nextAction with
  | "rest" =>
    if rec.nextActionAt < now then
      [.clearFinishedIngestions pname, .setProviderComplete rec.ingestionId]
    else
      []
  | "ingest" =>
    Eff.setProviderBursting rec.ingestionId ::
      (match bres with
        | .ok true => [.setProviderResting rec.ingestionId restLength]
        | .ok false => [.setProviderInterstitial rec.ingestionId]
        | .error e =>
          if e.message = some "CANCEL" then
            [.setProviderCanceling rec.ingestionId "CANCEL"]
          else
            [.setProviderBackoff rec.ingestionId rec.attempts e
              (backoffDelay backoff rec.attempts)])
  | "backoff" =>
    if rec.nextActionAt < now then
      [.setProviderIngesting rec.ingestionId]
    else
      []
  | "cancel" => [.setProviderCanceled rec.ingestionId]
  | _ => []

/-- Modelled from the spec: the effect of one store transition
(`IncrementalIngestionDatabaseManager`, outside the given sources) on the
ingestion record, per the lifecycle table of the spec. `setProviderResting`
moves to `rest` with next-action-at `now + restLength` and resets attempts
(attempts reset on success); `setProviderInterstitial` keeps the record in
`ingest`; `setProviderBackoff` moves to `backoff`, increments attempts and
sets next-action-at `now + delay`; `setProviderCanceling` moves to
`cancel`; `setProviderIngesting` resumes `ingest`; completion and
cancellation finalisation restart the cycle in `ingest`;
`clearFinishedIngestions` touches only other (historical) rows and
`setProviderBursting` marks an in-burst sub-state without changing these
four fields. -/
def applyEff (now : Nat) (rec : CurrentAction) : Eff → CurrentAction
  | .clearFinishedIngestions _ => rec
  | .setProviderComplete _ => { rec with nextAction := "ingest", attempts := 0 }
  | .setProviderBursting _ => rec
  | .setProviderResting _ d =>
    { rec with nextAction := "rest", nextActionAt := now + d, attempts := 0 }
  | .setProviderInterstitial _ => { rec with nextAction := "ingest" }
  | .setProviderCanceling _ _ => { rec with nextAction := "cancel" }
  | .setProviderBackoff _ a _ d =>
    { rec with nextAction := "backoff", attempts := a + 1, nextActionAt := now + d }
  | .setProviderIngesting _ => { rec with nextAction := "ingest" }
  | .setProviderCanceled _ => { rec with nextAction := "ingest", attempts := 0 }

/-- Folding a tick's transitions over the ingestion record, in order. -/
def applyEffs (now : Nat) (rec : CurrentAction) (effs : List Eff) : CurrentAction :=
  effs.foldl (applyEff now) rec

/-! Concrete fixtures used by the evaluation witnesses: a tiny two-page
source adapter over cursor type `Nat`. -/

/-- A sample deferred entity with no annotations, used in witnesses. -/
def wEnt : DeferredEntity :=
  { entity := { kind := "Component", metadata := { name := "a", annotations := [] } },
    locationKey := none }

/-- A sample entity returned by the reconciliation query in witnesses. -/
def wRm : DeferredEntity :=
  { entity := { kind := "Component", metadata := { name := "old", annotations := [] } },
    locationKey := none }

/-- A two-page source adapter for witnesses: the first fetch (cursor
`none`) yields one entity and cursor 1, the fetch at cursor 1 yields an
empty final page. -/
def wNext : Option Nat → Page Nat :=
  fun c =>
    match c with
    | none => { entities := [wEnt], cursor := some 1, done := false }
    | some 1 => { entities := [], cursor := some 2, done := true }
    | some _ => { entities := [], cursor := none, done := true }

/-- A three-page source adapter for witnesses that needs a longer burst:
pages at cursors `none`, 10 and 20, the last one final. -/
def wNext3 : Option Nat → Page Nat :=
  fun c =>
    match c with
    | none => { entities := [wEnt], cursor := some 10, done := false }
    | some 10 => { entities := [], cursor := some 20, done := false }
    | some 20 => { entities := [wEnt], cursor := some 30, done := true }
    | some _ => { entities := [], cursor := none, done := true }

/-! Helper lemmas about the burst loop's trace. -/

theorem pageSeq_shift {κ : Type} (next : Option κ → Page κ) (c : Option κ) (j : Nat) :
    pageSeq next c (j + 1) = pageSeq next (next c).cursor j := by
  induction j with
  | zero => rfl
  | succ j ih =>
    have h2 : pageSeq next c (j + 1 + 1) = next (pageSeq next c (j + 1)).cursor := rfl
    rw [h2, ih]
    rfl

theorem pageSeq_add {κ : Type} (next : Option κ → Page κ) (c : Option κ) (k j : Nat) :
    pageSeq next c (k + 1 + j) = pageSeq next (pageSeq next c k).cursor j := by
  induction j with
  | zero => rfl
  | succ j ih =>
    have h2 : pageSeq next c (k + 1 + (j + 1)) = next (pageSeq next c (k + 1 + j)).cursor := rfl
    rw [h2, ih]
    rfl

theorem burstGo_sequences {κ : Type} (pname : String) (seq0 : Nat)
    (removedQ : Nat → List DeferredEntity) (mutFail sig : Nat → Bool)
    (next : Option κ → Page κ) (fuel : Nat) : ∀ (i : Nat) (c : Option κ),
    (burstGo pname seq0 removedQ mutFail sig next fuel i c).1.map (fun m => m.sequence)
      = List.range' (seq0 + i)
          (burstGo pname seq0 removedQ mutFail sig next fuel i c).1.length := by
  induction fuel with
  | zero => intro i c; rfl
  | succ fuel ih =>
    intro i c
    by_cases hmf : mutFail i
    · simp [burstGo, hmf, mkMark]
    · by_cases hstop : (sig i || (next c).done) = true
      · simp [burstGo, hmf, hstop, mkMark]
      · have ih' := ih (i + 1) (next c).cursor
        simp only [burstGo, hmf, hstop, if_false, Bool.false_eq_true, if_neg,
          List.map_cons, List.length_cons, ih']
        rw [List.range'_succ]
        simp [mkMark, Nat.add_assoc]

theorem burstGo_marks_get {κ : Type} (pname : String) (seq0 : Nat)
    (removedQ : Nat → List DeferredEntity) (mutFail sig : Nat → Bool)
    (next : Option κ → Page κ) (fuel : Nat) : ∀ (i : Nat) (c : Option κ) (j : Nat),
    j < (burstGo pname seq0 removedQ mutFail sig next fuel i c).1.length →
    (burstGo pname seq0 removedQ mutFail sig next fuel i c).1[j]? =
      some (mkMark seq0 (i + j) (pageSeq next c j)) := by
  induction fuel with
  | zero => intro i c j hj; simp [burstGo] at hj
  | succ fuel ih =>
    intro i c j hj
    by_cases hmf : mutFail i
    · simp only [burstGo, hmf, if_true] at hj ⊢
      simp only [List.length_cons, List.length_nil] at hj
      have hj0 : j = 0 := by omega
      subst hj0
      simp [pageSeq]
    · by_cases hstop : (sig i || (next c).done) = true
      · simp only [burstGo, hmf, if_false, hstop, if_true, Bool.false_eq_true] at hj ⊢
        simp only [List.length_cons, List.length_nil] at hj
        have hj0 : j = 0 := by omega
        subst hj0
        simp [pageSeq]
      · simp only [burstGo, hmf, hstop, if_false, Bool.false_eq_true] at hj ⊢
        match j with
        | 0 => simp [pageSeq]
        | j + 1 =>
          simp only [List.length_cons] at hj
          have hj' : j < (burstGo pname seq0 removedQ mutFail sig next fuel (i + 1)
              (next c).cursor).1.length := by omega
          have := ih (i + 1) (next c).cursor j hj'
          simp only [List.getElem?_cons_succ, this]
          rw [pageSeq_shift]
          have harith : i + 1 + j = i + (j + 1) := by omega
          rw [harith]

theorem burstGo_muts_get {κ : Type} (pname : String) (seq0 : Nat)
    (removedQ : Nat → List DeferredEntity) (mutFail sig : Nat → Bool)
    (next : Option κ → Page κ) (fuel : Nat) : ∀ (i : Nat) (c : Option κ) (j : Nat),
    j < (burstGo pname seq0 removedQ mutFail sig next fuel i c).2.1.length →
    (burstGo pname seq0 removedQ mutFail sig next fuel i c).2.1[j]? =
      some (markMutation pname (removedQ (i + j)) (pageSeq next c j).entities
        (pageSeq next c j).done) := by
  induction fuel with
  | zero => intro i c j hj; simp [burstGo] at hj
  | succ fuel ih =>
    intro i c j hj
    by_cases hmf : mutFail i
    · simp only [burstGo, hmf, if_true] at hj
      simp at hj
    · by_cases hstop : (sig i || (next c).done) = true
      · simp only [burstGo, hmf, if_false, hstop, if_true, Bool.false_eq_true] at hj ⊢
        simp only [List.length_cons, List.length_nil] at hj
        have hj0 : j = 0 := by omega
        subst hj0
        simp [pageSeq]
      · simp only [burstGo, hmf, hstop, if_false, Bool.false_eq_true] at hj ⊢
        match j with
        | 0 => simp [pageSeq]
        | j + 1 =>
          simp only [List.length_cons] at hj
          have hj' : j < (burstGo pname seq0 removedQ mutFail sig next fuel (i + 1)
              (next c).cursor).2.1.length := by omega
          have := ih (i + 1) (next c).cursor j hj'
          simp only [List.getElem?_cons_succ, this]
          rw [pageSeq_shift]
          have harith : i + 1 + j = i + (j + 1) := by omega
          rw [harith]

theorem burstGo_ok_len {κ : Type} (pname : String) (seq0 : Nat)
    (removedQ : Nat → List DeferredEntity) (mutFail sig : Nat → Bool)
    (next : Option κ → Page κ) (fuel : Nat) : ∀ (i : Nat) (c : Option κ) (d : Bool),
    (burstGo pname seq0 removedQ mutFail sig next fuel i c).2.2 = .ok d →
    (burstGo pname seq0 removedQ mutFail sig next fuel i c).2.1.length =
        (burstGo pname seq0 removedQ mutFail sig next fuel i c).1.length ∧
      1 ≤ (burstGo pname seq0 removedQ mutFail sig next fuel i c).1.length ∧
      d = (pageSeq next c
        ((burstGo pname seq0 removedQ mutFail sig next fuel i c).1.length - 1)).done := by
  induction fuel with
  | zero => intro i c d h; simp [burstGo] at h
  | succ fuel ih =>
    intro i c d h
    by_cases hmf : mutFail i
    · simp [burstGo, hmf] at h
    · by_cases hstop : (sig i || (next c).done) = true
      · simp only [burstGo, hmf, if_false, hstop, if_true, Bool.false_eq_true] at h ⊢
        cases h
        simp [pageSeq]
      · simp only [burstGo, hmf, hstop, if_false, Bool.false_eq_true] at h ⊢
        obtain ⟨hlen, hpos, hd⟩ := ih (i + 1) (next c).cursor d h
        refine ⟨by simp [hlen], by simp, ?_⟩
        simp only [List.length_cons]
        set n := (burstGo pname seq0 removedQ mutFail sig next fuel (i + 1)
          (next c).cursor).1.length with hn
        have h1 : n + 1 - 1 = (n - 1) + 1 := by omega
        rw [h1, pageSeq_shift]
        exact hd

theorem burstGo_err_len {κ : Type} (pname : String) (seq0 : Nat)
    (removedQ : Nat → List DeferredEntity) (mutFail sig : Nat → Bool)
    (next : Option κ → Page κ) (fuel : Nat) : ∀ (i : Nat) (c : Option κ),
    (burstGo pname seq0 removedQ mutFail sig next fuel i c).2.2 = .err →
    (burstGo pname seq0 removedQ mutFail sig next fuel i c).1.length =
      (burstGo pname seq0 removedQ mutFail sig next fuel i c).2.1.length + 1 := by
  induction fuel with
  | zero => intro i c h; simp [burstGo] at h
  | succ fuel ih =>
    intro i c h
    by_cases hmf : mutFail i
    · simp [burstGo, hmf]
    · by_cases hstop : (sig i || (next c).done) = true
      · simp [burstGo, hmf, hstop] at h
      · simp only [burstGo, hmf, hstop, if_false, Bool.false_eq_true] at h ⊢
        have := ih (i + 1) (next c).cursor h
        simp [this]

theorem burstGo_err_at {κ : Type} (pname : String) (seq0 : Nat)
    (removedQ : Nat → List DeferredEntity) (mutFail sig : Nat → Bool)
    (next : Option κ → Page κ) (k : Nat) : ∀ (fuel i : Nat) (c : Option κ), k < fuel →
    (∀ j, j < k → mutFail (i + j) = false ∧ sig (i + j) = false ∧
      (pageSeq next c j).done = false) →
    mutFail (i + k) = true →
    (burstGo pname seq0 removedQ mutFail sig next fuel i c).2.2 = .err ∧
      (burstGo pname seq0 removedQ mutFail sig next fuel i c).1.length = k + 1 ∧
      (burstGo pname seq0 removedQ mutFail sig next fuel i c).2.1.length = k := by
  induction k with
  | zero =>
    intro fuel i c hf hpre hk
    obtain ⟨fuel, rfl⟩ : ∃ f, fuel = f + 1 := ⟨fuel - 1, by omega⟩
    have hk0 : mutFail i = true := by simpa using hk
    simp [burstGo, hk0]
  | succ k ihk =>
    intro fuel i c hf hpre hk
    obtain ⟨fuel, rfl⟩ : ∃ f, fuel = f + 1 := ⟨fuel - 1, by omega⟩
    obtain ⟨h0f, h0s, h0d⟩ := hpre 0 (by omega)
    have h0f' : mutFail i = false := by simpa using h0f
    have h0s' : sig i = false := by simpa using h0s
    have h0d' : (next c).done = false := by simpa using h0d
    have hpre' : ∀ j, j < k → mutFail (i + 1 + j) = false ∧ sig (i + 1 + j) = false ∧
        (pageSeq next (next c).cursor j).done = false := by
      intro j hj
      have := hpre (j + 1) (by omega)
      rw [← pageSeq_shift]
      have harith : i + (j + 1) = i + 1 + j := by omega
      rw [harith] at this
      exact this
    have hk' : mutFail (i + 1 + k) = true := by
      have harith : i + (k + 1) = i + 1 + k := by omega
      rw [← harith]
      exact hk
    obtain ⟨hres, hm, hmu⟩ := ihk fuel (i + 1) (next c).cursor (by omega) hpre' hk'
    have hstop : (sig i || (next c).done) = false := by simp [h0s', h0d']
    simp only [burstGo, h0f', hstop, if_false, Bool.false_eq_true]
    exact ⟨hres, by simp [hm], by simp [hmu]⟩

theorem burstGo_stop_at {κ : Type} (pname : String) (seq0 : Nat)
    (removedQ : Nat → List DeferredEntity) (mutFail sig : Nat → Bool)
    (next : Option κ → Page κ) (k : Nat) : ∀ (fuel i : Nat) (c : Option κ), k < fuel →
    (∀ j, j < k → mutFail (i + j) = false ∧ sig (i + j) = false ∧
      (pageSeq next c j).done = false) →
    mutFail (i + k) = false →
    (sig (i + k) || (pageSeq next c k).done) = true →
    (burstGo pname seq0 removedQ mutFail sig next fuel i c).2.2 =
        .ok ((pageSeq next c k).done) ∧
      (burstGo pname seq0 removedQ mutFail sig next fuel i c).1.length = k + 1 ∧
      (burstGo pname seq0 removedQ mutFail sig next fuel i c).2.1.length = k + 1 := by
  induction k with
  | zero =>
    intro fuel i c hf hpre hk hstop
    obtain ⟨fuel, rfl⟩ : ∃ f, fuel = f + 1 := ⟨fuel - 1, by omega⟩
    have hk0 : mutFail i = false := by simpa using hk
    have hstop0 : (sig i || (next c).done) = true := by simpa [pageSeq] using hstop
    simp [burstGo, hk0, hstop0, pageSeq]
  | succ k ihk =>
    intro fuel i c hf hpre hk hstop
    obtain ⟨fuel, rfl⟩ : ∃ f, fuel = f + 1 := ⟨fuel - 1, by omega⟩
    obtain ⟨h0f, h0s, h0d⟩ := hpre 0 (by omega)
    have h0f' : mutFail i = false := by simpa using h0f
    have h0s' : sig i = false := by simpa using h0s
    have h0d' : (next c).done = false := by simpa using h0d
    have hpre' : ∀ j, j < k → mutFail (i + 1 + j) = false ∧ sig (i + 1 + j) = false ∧
        (pageSeq next (next c).cursor j).done = false := by
      intro j hj
      have := hpre (j + 1) (by omega)
      rw [← pageSeq_shift]
      have harith : i + (j + 1) = i + 1 + j := by omega
      rw [harith] at this
      exact this
    have harith : i + (k + 1) = i + 1 + k := by omega
    have hk' : mutFail (i + 1 + k) = false := by rw [← harith]; exact hk
    have hstop' : (sig (i + 1 + k) || (pageSeq next (next c).cursor k).done) = true := by
      rw [← harith, ← pageSeq_shift]
      exact hstop
    obtain ⟨hres, hm, hmu⟩ := ihk fuel (i + 1) (next c).cursor (by omega) hpre' hk' hstop'
    have hstop0 : (sig i || (next c).done) = false := by simp [h0s', h0d']
    simp only [burstGo, h0f', hstop0, if_false, Bool.false_eq_true]
    rw [pageSeq_shift]
    exact ⟨hres, by simp [hm], by simp [hmu]⟩

theorem lookup_setAnn (l : List (String × String)) (k v : String) :
    List.lookup k (setAnn l k v) = some v := by
  induction l with
  | nil => simp [setAnn, List.lookup]
  | cons p t ih =>
    rcases p with ⟨pa, pb⟩
    by_cases hp : pa = k
    · simpa [setAnn, hp] using ih
    · simp only [setAnn, List.filter_cons] at ih ⊢
      have hpd : decide ((pa, pb).1 ≠ k) = true := by simpa using hp
      rw [hpd]
      simp only [if_true, List.cons_append, List.lookup_cons]
      have hbeq : (k == pa) = false := beq_eq_false_iff_ne.mpr (fun h => hp h.symm)
      rw [hbeq]
      simpa using ih

theorem markMutation_added_tagged (pname : String) (rm es : List DeferredEntity) (dn : Bool) :
    ∀ d ∈ (markMutation pname rm es dn).added,
      List.lookup PROVIDER_MARKER_KEY d.entity.metadata.annotations = some pname := by
  intro d hd
  simp only [markMutation, List.mem_map] at hd
  obtain ⟨e, _, rfl⟩ := hd
  simpa [tagEntity] using lookup_setAnn e.entity.metadata.annotations PROVIDER_MARKER_KEY pname

theorem burstGo_muts_mem {κ : Type} (pname : String) (seq0 : Nat)
    (removedQ : Nat → List DeferredEntity) (mutFail sig : Nat → Bool)
    (next : Option κ → Page κ) (fuel : Nat) : ∀ (i : Nat) (c : Option κ),
    ∀ mu ∈ (burstGo pname seq0 removedQ mutFail sig next fuel i c).2.1,
      mu.type = "delta" ∧
      ∀ d ∈ mu.added,
        List.lookup PROVIDER_MARKER_KEY d.entity.metadata.annotations = some pname := by
  induction fuel with
  | zero => intro i c mu hmu; simp [burstGo] at hmu
  | succ fuel ih =>
    intro i c mu hmu
    by_cases hmf : mutFail i
    · simp [burstGo, hmf] at hmu
    · by_cases hstop : (sig i || (next c).done) = true
      · simp only [burstGo, hmf, if_false, hstop, if_true, Bool.false_eq_true,
          List.mem_singleton] at hmu
        subst hmu
        exact ⟨rfl, markMutation_added_tagged pname _ _ _⟩
      · simp only [burstGo, hmf, hstop, if_false, Bool.false_eq_true, List.mem_cons] at hmu
        rcases hmu with hmu | hmu
        · subst hmu
          exact ⟨rfl, markMutation_added_tagged pname _ _ _⟩
        · exact ih (i + 1) (next c).cursor mu hmu

theorem backoffDelay_eq_get (table : List Nat) (a : Nat) (h : 0 < table.length) :
    backoffDelay table a = table.get ⟨min (table.length - 1) a, by
      have := Nat.min_le_left (table.length - 1) a; omega⟩ := by
  have hia : min (table.length - 1) a < table.length := by
    have := Nat.min_le_left (table.length - 1) a; omega
  unfold backoffDelay
  rw [List.getD_eq_getElem?_getD, List.getElem?_eq_getElem hia]
  simp [List.get_eq_getElem]

theorem backoffDelay_mono (table : List Nat) (ht : 0 < table.length)
    (hs : List.Sorted (· ≤ ·) table) {a b : Nat} (hab : a ≤ b) :
    backoffDelay table a ≤ backoffDelay table b := by
  rw [backoffDelay_eq_get table a ht, backoffDelay_eq_get table b ht]
  exact hs.rel_get_of_le (by
    simp only [Fin.mk_le_mk]
    exact min_le_min (le_refl _) hab)

/-! Theorems for the claims. -/

/-- C3: the backoff delay chosen after a non-cancellation burst failure at
attempts `a` equals `backoffTable[min(a, len - 1)]`; for a shortest-first
(sorted) table the delay is monotonically non-decreasing in attempts and
clamps to the last table entry once attempts ≥ table length; with the
default table (used when the caller supplies none) attempts 0 gives
1 minute, 3 gives 3 hours and 10 gives 3 hours. -/
theorem c3_backoff_delay (table : List Nat) (a b : Nat) (ht : table ≠ [])
    (hsorted : List.Sorted (· ≤ ·) table) (hab : a ≤ b)
    (rec : CurrentAction) (restLen now : Nat) (pname : String) (e : Err)
    (hact : rec.nextAction = "ingest") (hnc : e.message ≠ some "CANCEL")
    (ha : rec.attempts = a) :
    handleNextAction table restLen pname rec now (.error e) =
      [.setProviderBursting rec.ingestionId,
       .setProviderBackoff rec.ingestionId a e (backoffDelay table a)] ∧
    backoffDelay table a = table.getD (min a (table.length - 1)) 0 ∧
    backoffDelay table a ≤ backoffDelay table b ∧
    (table.length ≤ a → backoffDelay table a = table.getLast ht) ∧
    mkBackoff none = defaultBackoff ∧
    backoffDelay (mkBackoff none) 0 = 60000 ∧
    backoffDelay (mkBackoff none) 3 = 10800000 ∧
    backoffDelay (mkBackoff none) 10 = 10800000 := by
  have hlen : 0 < table.length := List.length_pos.mpr ht
  refine ⟨by simp [handleNextAction, hact, hnc, ha], ?_, ?_, ?_, rfl, rfl, rfl, rfl⟩
  · simp [backoffDelay, Nat.min_comm]
  · exact backoffDelay_mono table hlen hsorted hab
  · intro hge
    have hmin : min (table.length - 1) a = table.length - 1 := by
      have : table.length - 1 ≤ a := by omega
      exact Nat.min_eq_left this
    rw [backoffDelay_eq_get table a hlen, List.getLast_eq_getElem]
    simp [List.get_eq_getElem, hmin]

/-- C3 witness: with the default table (sorted, nonempty), at attempts 2 the
tick after a non-cancellation failure issues a backoff of 30 minutes, the
formula and clamp hold, and the cited default values evaluate as claimed. -/
theorem c3_backoff_delay_witness :
    handleNextAction defaultBackoff 1000 "p"
        { ingestionId := "i", nextAction := "ingest", attempts := 2, nextActionAt := 0 } 7
        (.error { name := "Error", message := some "boom" }) =
      [.setProviderBursting "i",
       .setProviderBackoff "i" 2 { name := "Error", message := some "boom" } 1800000] ∧
    (1800000 : Nat) = defaultBackoff.getD (min 2 (defaultBackoff.length - 1)) 0 ∧
    (1800000 : Nat) ≤ backoffDelay defaultBackoff 7 ∧
    (defaultBackoff.length ≤ 2 → (1800000 : Nat) = defaultBackoff.getLast (by decide)) ∧
    mkBackoff none = defaultBackoff ∧
    backoffDelay (mkBackoff none) 0 = 60000 ∧
    backoffDelay (mkBackoff none) 3 = 10800000 ∧
    backoffDelay (mkBackoff none) 10 = 10800000 :=
  c3_backoff_delay defaultBackoff 2 7 (by decide) (by decide) (by decide)
    { ingestionId := "i", nextAction := "ingest", attempts := 2, nextActionAt := 0 }
    1000 7 "p" { name := "Error", message := some "boom" } rfl (by decide) rfl

/-- C4: in the ingest action, a burst failure whose message is exactly
`CANCEL` routes the tick to `setProviderCanceling` with the cancellation
reason, regardless of the attempts count, and the attempts counter is not
incremented (no `setProviderBackoff` is issued and the record's attempts
are unchanged); any other burst failure is caught and converted into
`setProviderBackoff` with the computed delay instead of propagating out of
the tick. -/
theorem c4_cancel_vs_backoff (table : List Nat) (restLen : Nat) (pname : String)
    (rec : CurrentAction) (now : Nat) (e e' : Err)
    (hact : rec.nextAction = "ingest")
    (hc : e.message = some "CANCEL") (hnc : e'.message ≠ some "CANCEL") :
    handleNextAction table restLen pname rec now (.error e) =
      [.setProviderBursting rec.ingestionId,
       .setProviderCanceling rec.ingestionId "CANCEL"] ∧
    (applyEffs now rec (handleNextAction table restLen pname rec now (.error e))).attempts
      = rec.attempts ∧
    (applyEffs now rec (handleNextAction table restLen pname rec now (.error e))).nextAction
      = "cancel" ∧
    handleNextAction table restLen pname rec now (.error e') =
      [.setProviderBursting rec.ingestionId,
       .setProviderBackoff rec.ingestionId rec.attempts e'
         (backoffDelay table rec.attempts)] := by
  refine ⟨by simp [handleNextAction, hact, hc], ?_, ?_, by simp [handleNextAction, hact, hnc]⟩
  · simp [handleNextAction, hact, hc, applyEffs, applyEff]
  · simp [handleNextAction, hact, hc, applyEffs, applyEff]

/-- C4 witness: at attempts 41, a `CANCEL`-message failure routes to
canceling and leaves attempts at 41, while a plain failure routes to
backoff with the clamped 3-hour delay. -/
theorem c4_cancel_vs_backoff_witness :
    handleNextAction defaultBackoff 1000 "p"
        { ingestionId := "i", nextAction := "ingest", attempts := 41, nextActionAt := 0 } 7
        (.error { name := "Error", message := some "CANCEL" }) =
      [.setProviderBursting "i", .setProviderCanceling "i" "CANCEL"] ∧
    (applyEffs 7 { ingestionId := "i", nextAction := "ingest", attempts := 41, nextActionAt := 0 }
        (handleNextAction defaultBackoff 1000 "p"
          { ingestionId := "i", nextAction := "ingest", attempts := 41, nextActionAt := 0 } 7
          (.error { name := "Error", message := some "CANCEL" }))).attempts = 41 ∧
    (applyEffs 7 { ingestionId := "i", nextAction := "ingest", attempts := 41, nextActionAt := 0 }
        (handleNextAction defaultBackoff 1000 "p"
          { ingestionId := "i", nextAction := "ingest", attempts := 41, nextActionAt := 0 } 7
          (.error { name := "Error", message := some "CANCEL" }))).nextAction = "cancel" ∧
    handleNextAction defaultBackoff 1000 "p"
        { ingestionId := "i", nextAction := "ingest", attempts := 41, nextActionAt := 0 } 7
        (.error { name := "Error", message := some "boom" }) =
      [.setProviderBursting "i",
       .setProviderBackoff "i" 41 { name := "Error", message := some "boom" } 10800000] :=
  c4_cancel_vs_backoff defaultBackoff 1000 "p"
    { ingestionId := "i", nextAction := "ingest", attempts := 41, nextActionAt := 0 } 7
    { name := "Error", message := some "CANCEL" } { name := "Error", message := some "boom" }
    rfl rfl (by decide)

/-- C5 counterexample: routing to `cancel` is decided purely by string
matching on the error message, not by a distinguished error kind: an error
of the generic kind `Error` whose message text happens to be `CANCEL` is
routed to canceling, while an error of a distinguished cancellation kind
(`CancelError`) with a different message is routed to backoff. -/
theorem c5_counterexample_string_match :
    handleNextAction defaultBackoff 1000 "p"
        { ingestionId := "i", nextAction := "ingest", attempts := 0, nextActionAt := 0 } 5
        (.error { name := "Error", message := some "CANCEL" }) =
      [.setProviderBursting "i", .setProviderCanceling "i" "CANCEL"] ∧
    handleNextAction defaultBackoff 1000 "p"
        { ingestionId := "i", nextAction := "ingest", attempts := 0, nextActionAt := 0 } 5
        (.error { name := "CancelError", message := some "canceled by caller" }) =
      [.setProviderBursting "i",
       .setProviderBackoff "i" 0 { name := "CancelError", message := some "canceled by caller" }
         60000] := by
  decide

/-- C5 (amended): a cancellation failure raised during a burst is
recognized by comparing the error's message text with the exact string
`CANCEL` (the error's kind/class name is ignored), and exactly that string
match routes the ingestion to canceling rather than backoff. -/
theorem c5_cancel_recognition (table : List Nat) (restLen : Nat) (pname : String)
    (rec : CurrentAction) (now : Nat) (e : Err) (hact : rec.nextAction = "ingest") :
    ((Eff.setProviderCanceling rec.ingestionId "CANCEL") ∈
        handleNextAction table restLen pname rec now (.error e)
      ↔ e.message = some "CANCEL") ∧
    (e.message = some "CANCEL" →
      handleNextAction table restLen pname rec now (.error e) =
        [.setProviderBursting rec.ingestionId,
         .setProviderCanceling rec.ingestionId "CANCEL"]) := by
  by_cases hc : e.message = some "CANCEL"
  · refine ⟨?_, fun _ => by simp [handleNextAction, hact, hc]⟩
    simp [handleNextAction, hact, hc]
  · refine ⟨?_, fun h => absurd h hc⟩
    simp [handleNextAction, hact, hc]

/-- C5 witness: for an error of kind `SomeError` with message `CANCEL`, the
membership criterion evaluates to true and the tick issues the canceling
transition. -/
theorem c5_cancel_recognition_witness :
    ((Eff.setProviderCanceling "i" "CANCEL") ∈
        handleNextAction defaultBackoff 1000 "p"
          { ingestionId := "i", nextAction := "ingest", attempts := 3, nextActionAt := 0 } 5
          (.error { name := "SomeError", message := some "CANCEL" })
      ↔ ({ name := "SomeError", message := some "CANCEL" } : Err).message = some "CANCEL") ∧
    (({ name := "SomeError", message := some "CANCEL" } : Err).message = some "CANCEL" →
      handleNextAction defaultBackoff 1000 "p"
          { ingestionId := "i", nextAction := "ingest", attempts := 3, nextActionAt := 0 } 5
          (.error { name := "SomeError", message := some "CANCEL" }) =
        [.setProviderBursting "i", .setProviderCanceling "i" "CANCEL"]) :=
  c5_cancel_recognition defaultBackoff 1000 "p"
    { ingestionId := "i", nextAction := "ingest", attempts := 3, nextActionAt := 0 } 5
    { name := "SomeError", message := some "CANCEL" } rfl

/-- C6: when a burst in the ingest action completes without error, full
completion (`done = true`) transitions the ingestion to rest with
next-action-at equal to now plus the configured rest length, and partial
completion (`done = false`) keeps the ingestion in ingest, marked
interstitial. -/
theorem c6_burst_completion (table : List Nat) (restLen : Nat) (pname : String)
    (rec : CurrentAction) (now : Nat) (hact : rec.nextAction = "ingest") :
    handleNextAction table restLen pname rec now (.ok true) =
      [.setProviderBursting rec.ingestionId, .setProviderResting rec.ingestionId restLen] ∧
    (applyEffs now rec (handleNextAction table restLen pname rec now (.ok true))).nextAction
      = "rest" ∧
    (applyEffs now rec (handleNextAction table restLen pname rec now (.ok true))).nextActionAt
      = now + restLen ∧
    handleNextAction table restLen pname rec now (.ok false) =
      [.setProviderBursting rec.ingestionId, .setProviderInterstitial rec.ingestionId] ∧
    (applyEffs now rec (handleNextAction table restLen pname rec now (.ok false))).nextAction
      = "ingest" := by
  refine ⟨by simp [handleNextAction, hact], ?_, ?_, by simp [handleNextAction, hact], ?_⟩ <;>
    simp [handleNextAction, hact, applyEffs, applyEff]

/-- C6 witness: at time 500 with rest length 90000, a fully completed burst
rests until 90500; a partially completed burst stays in ingest. -/
theorem c6_burst_completion_witness :
    handleNextAction defaultBackoff 90000 "p"
        { ingestionId := "i", nextAction := "ingest", attempts := 0, nextActionAt := 0 } 500
        (.ok true) =
      [.setProviderBursting "i", .setProviderResting "i" 90000] ∧
    (applyEffs 500 { ingestionId := "i", nextAction := "ingest", attempts := 0, nextActionAt := 0 }
        (handleNextAction defaultBackoff 90000 "p"
          { ingestionId := "i", nextAction := "ingest", attempts := 0, nextActionAt := 0 } 500
          (.ok true))).nextAction = "rest" ∧
    (applyEffs 500 { ingestionId := "i", nextAction := "ingest", attempts := 0, nextActionAt := 0 }
        (handleNextAction defaultBackoff 90000 "p"
          { ingestionId := "i", nextAction := "ingest", attempts := 0, nextActionAt := 0 } 500
          (.ok true))).nextActionAt = 500 + 90000 ∧
    handleNextAction defaultBackoff 90000 "p"
        { ingestionId := "i", nextAction := "ingest", attempts := 0, nextActionAt := 0 } 500
        (.ok false) =
      [.setProviderBursting "i", .setProviderInterstitial "i"] ∧
    (applyEffs 500 { ingestionId := "i", nextAction := "ingest", attempts := 0, nextActionAt := 0 }
        (handleNextAction defaultBackoff 90000 "p"
          { ingestionId := "i", nextAction := "ingest", attempts := 0, nextActionAt := 0 } 500
          (.ok false))).nextAction = "ingest" :=
  c6_burst_completion defaultBackoff 90000 "p"
    { ingestionId := "i", nextAction := "ingest", attempts := 0, nextActionAt := 0 } 500 rfl

/-- C7: the delta applied for the `j`-th page of a burst has as its removed
set the result of the Target Store's reconciliation query (`computeRemoved`)
exactly when the page is not the burst's final (`done`) page, while a
`done` page's removed set is the empty list by construction. -/
theorem c7_removed_reconciliation {κ : Type} (pname : String) (rm es : List DeferredEntity)
    (lastMark : Option (MarkRecord κ)) (removedQ : Nat → List DeferredEntity)
    (mutFail sig : Nat → Bool) (next : Option κ → Page κ) (fuel j : Nat)
    (hj : j < (ingestOneBurst pname lastMark removedQ mutFail sig next fuel).2.1.length) :
    (ingestOneBurst pname lastMark removedQ mutFail sig next fuel).2.1[j]? =
      some (markMutation pname (removedQ j)
        (pageSeq next (startCursor lastMark) j).entities
        (pageSeq next (startCursor lastMark) j).done) ∧
    (markMutation pname (removedQ j) (pageSeq next (startCursor lastMark) j).entities
        (pageSeq next (startCursor lastMark) j).done).removed =
      (if (pageSeq next (startCursor lastMark) j).done then [] else removedQ j) ∧
    (markMutation pname rm es true).removed = [] ∧
    (markMutation pname rm es false).removed = rm := by
  have h := burstGo_muts_get pname (startSeq lastMark) removedQ mutFail sig next fuel 0
    (startCursor lastMark) j hj
  simp only [Nat.zero_add] at h
  exact ⟨h, rfl, rfl, rfl⟩

/-- C7 witness: in a two-page burst the first (non-final) page's delta
carries the reconciliation query's result as its removed set, and the
final page's removed set is empty. -/
theorem c7_removed_reconciliation_witness :
    (ingestOneBurst "p" none (fun _ => [wRm]) (fun _ => false) (fun _ => false) wNext 5).2.1[0]? =
      some (markMutation "p" [wRm] [wEnt] false) ∧
    (markMutation "p" [wRm] [wEnt] false).removed = [wRm] ∧
    (markMutation "p" [wRm] [wEnt] true).removed = [] ∧
    (markMutation "p" [wRm] [wEnt] false).removed = [wRm] :=
  c7_removed_reconciliation "p" [wRm] [wEnt] none (fun _ => [wRm]) (fun _ => false)
    (fun _ => false) wNext 5 0 (by decide)

/-- C8: every mutation a burst applies has type `delta`; every entity in
its added set carries the provenance marker key bound to the owning
provider's name (the tagging `mark` performs before `applyMutation`); and
a burst that returns normally applies exactly one mutation per fetched
page, i.e. as many mutations as persisted marks. -/
theorem c8_provenance_tagging {κ : Type} (pname : String)
    (lastMark : Option (MarkRecord κ)) (removedQ : Nat → List DeferredEntity)
    (mutFail sig : Nat → Bool) (next : Option κ → Page κ) (fuel : Nat)
    (mu : Mutation) (d : DeferredEntity) (dres : Bool)
    (hmu : mu ∈ (ingestOneBurst pname lastMark removedQ mutFail sig next fuel).2.1)
    (hd : d ∈ mu.added)
    (hres : (ingestOneBurst pname lastMark removedQ mutFail sig next fuel).2.2 = .ok dres) :
    mu.type = "delta" ∧
    List.lookup PROVIDER_MARKER_KEY d.entity.metadata.annotations = some pname ∧
    (ingestOneBurst pname lastMark removedQ mutFail sig next fuel).2.1.length =
      (ingestOneBurst pname lastMark removedQ mutFail sig next fuel).1.length := by
  obtain ⟨hty, htag⟩ := burstGo_muts_mem pname (startSeq lastMark) removedQ mutFail sig next
    fuel 0 (startCursor lastMark) mu hmu
  exact ⟨hty, htag d hd,
    (burstGo_ok_len pname (startSeq lastMark) removedQ mutFail sig next fuel 0
      (startCursor lastMark) dres hres).1⟩

/-- C8 witness: in the two-page burst, the first applied mutation has type
`delta`, its added entity carries the provenance marker bound to `p`, and
the burst applies as many mutations as it persists marks. -/
theorem c8_provenance_tagging_witness :
    (markMutation "p" [wRm] [wEnt] false).type = "delta" ∧
    List.lookup PROVIDER_MARKER_KEY (tagEntity "p" wEnt).entity.metadata.annotations =
      some "p" ∧
    (ingestOneBurst "p" none (fun _ => [wRm]) (fun _ => false) (fun _ => false) wNext 5).2.1.length =
      (ingestOneBurst "p" none (fun _ => [wRm]) (fun _ => false) (fun _ => false) wNext 5).1.length :=
  c8_provenance_tagging "p" none (fun _ => [wRm]) (fun _ => false) (fun _ => false) wNext 5
    (markMutation "p" [wRm] [wEnt] false) (tagEntity "p" wEnt) true
    (by decide) (by decide) (by decide)

/-- C9: while the action is rest or backoff with now not past
next-action-at, a tick issues no store transition and leaves the ingestion
record (attempts included) untouched across arbitrarily many such ticks;
once the timestamp has elapsed, a rest tick purges finished ingestions and
marks the ingestion complete, and a backoff tick transitions back to
ingest. -/
theorem c9_wait_frame (table : List Nat) (restLen : Nat) (pname : String)
    (rec1 rec2 rec3 : CurrentAction) (now : Nat) (bres : Except Err Bool) (n : Nat)
    (h1 : rec1.nextAction = "rest" ∨ rec1.nextAction = "backoff")
    (h1t : ¬ rec1.nextActionAt < now)
    (h2 : rec2.nextAction = "rest") (h2t : rec2.nextActionAt < now)
    (h3 : rec3.nextAction = "backoff") (h3t : rec3.nextActionAt < now) :
    handleNextAction table restLen pname rec1 now bres = [] ∧
    (fun r => applyEffs now r (handleNextAction table restLen pname r now bres))^[n] rec1
      = rec1 ∧
    handleNextAction table restLen pname rec2 now bres =
      [.clearFinishedIngestions pname, .setProviderComplete rec2.ingestionId] ∧
    handleNextAction table restLen pname rec3 now bres =
      [.setProviderIngesting rec3.ingestionId] ∧
    (applyEffs now rec3 (handleNextAction table restLen pname rec3 now bres)).nextAction
      = "ingest" := by
  have hz : handleNextAction table restLen pname rec1 now bres = [] := by
    rcases h1 with h | h <;> simp [handleNextAction, h, h1t]
  refine ⟨hz, ?_, by simp [handleNextAction, h2, h2t], by simp [handleNextAction, h3, h3t],
    by simp [handleNextAction, h3, h3t, applyEffs, applyEff]⟩
  induction n with
  | zero => rfl
  | succ n ih =>
    rw [Function.iterate_succ_apply]
    have hfix : applyEffs now rec1 (handleNextAction table restLen pname rec1 now bres)
        = rec1 := by
      rw [hz]; rfl
    simpa [hfix] using ih

/-- C9 witness: a rest record waiting until time 100 is untouched across 7
ticks at time 50, while at the same time a rest record due at 10
transitions via purge plus complete and a backoff record due at 20 resumes
ingest. -/
theorem c9_wait_frame_witness :
    handleNextAction defaultBackoff 1000 "p"
        { ingestionId := "i", nextAction := "rest", attempts := 4, nextActionAt := 100 } 50
        (.ok true) = [] ∧
    (fun r => applyEffs 50 r (handleNextAction defaultBackoff 1000 "p" r 50 (.ok true)))^[7]
        { ingestionId := "i", nextAction := "rest", attempts := 4, nextActionAt := 100 }
      = { ingestionId := "i", nextAction := "rest", attempts := 4, nextActionAt := 100 } ∧
    handleNextAction defaultBackoff 1000 "p"
        { ingestionId := "j", nextAction := "rest", attempts := 0, nextActionAt := 10 } 50
        (.ok true) =
      [.clearFinishedIngestions "p", .setProviderComplete "j"] ∧
    handleNextAction defaultBackoff 1000 "p"
        { ingestionId := "k", nextAction := "backoff", attempts := 2, nextActionAt := 20 } 50
        (.ok true) = [.setProviderIngesting "k"] ∧
    (applyEffs 50 { ingestionId := "k", nextAction := "backoff", attempts := 2, nextActionAt := 20 }
        (handleNextAction defaultBackoff 1000 "p"
          { ingestionId := "k", nextAction := "backoff", attempts := 2, nextActionAt := 20 } 50
          (.ok true))).nextAction = "ingest" := by
  have h := c9_wait_frame defaultBackoff 1000 "p"
    { ingestionId := "i", nextAction := "rest", attempts := 4, nextActionAt := 100 }
    { ingestionId := "j", nextAction := "rest", attempts := 0, nextActionAt := 10 }
    { ingestionId := "k", nextAction := "backoff", attempts := 2, nextActionAt := 20 }
    50 (.ok true) 7 (Or.inl rfl) (by decide) rfl (by decide) rfl (by decide)
  exact h

/-- C1: every fetched page of a burst gets a persisted mark carrying
exactly that page's cursor and entities (zero entities included); a burst
resumes from sequence `lastMark.sequence + 1` using `lastMark.cursor`
(sequence 0 and an undefined cursor when no mark exists); and the mark
sequences of a first burst followed by a burst resumed from its last
persisted mark form the contiguous, strictly increasing range starting at
the first burst's starting sequence. -/
theorem c1_marks_contiguous {κ : Type} (pname : String)
    (lastMark0 : Option (MarkRecord κ)) (L : MarkRecord κ)
    (rq1 rq2 : Nat → List DeferredEntity) (mf1 mf2 sig1 sig2 : Nat → Bool)
    (next : Option κ → Page κ) (fuel1 fuel2 : Nat) (j : Nat)
    (hne : (ingestOneBurst pname lastMark0 rq1 mf1 sig1 next fuel1).1 ≠ [])
    (hL : (ingestOneBurst pname lastMark0 rq1 mf1 sig1 next fuel1).1[
        (ingestOneBurst pname lastMark0 rq1 mf1 sig1 next fuel1).1.length - 1]?
      = some L)
    (hj : j < (ingestOneBurst pname lastMark0 rq1 mf1 sig1 next fuel1).1.length) :
    startSeq (some L) = L.sequence + 1 ∧
    startCursor (some L) = L.cursor ∧
    startSeq (none : Option (MarkRecord κ)) = 0 ∧
    (ingestOneBurst pname lastMark0 rq1 mf1 sig1 next fuel1).1[j]? =
      some (mkMark (startSeq lastMark0) j (pageSeq next (startCursor lastMark0) j)) ∧
    ((ingestOneBurst pname lastMark0 rq1 mf1 sig1 next fuel1).1 ++
        (ingestOneBurst pname (some L) rq2 mf2 sig2 next fuel2).1).map
        (fun m => m.sequence) =
      List.range' (startSeq lastMark0)
        ((ingestOneBurst pname lastMark0 rq1 mf1 sig1 next fuel1).1.length +
          (ingestOneBurst pname (some L) rq2 mf2 sig2 next fuel2).1.length) := by
  simp only [ingestOneBurst] at hne hL hj ⊢
  have hlen1 : 0 < (burstGo pname (startSeq lastMark0) rq1 mf1 sig1 next fuel1
      0 (startCursor lastMark0)).1.length :=
    List.length_pos.mpr hne
  have hget := burstGo_marks_get pname (startSeq lastMark0) rq1 mf1 sig1 next fuel1
    0 (startCursor lastMark0) j hj
  simp only [Nat.zero_add] at hget
  refine ⟨rfl, rfl, rfl, hget, ?_⟩
  have hlast := burstGo_marks_get pname (startSeq lastMark0) rq1 mf1 sig1 next fuel1
    0 (startCursor lastMark0)
    ((burstGo pname (startSeq lastMark0) rq1 mf1 sig1 next fuel1
      0 (startCursor lastMark0)).1.length - 1)
    (by omega)
  rw [hlast] at hL
  have hLs : L.sequence = startSeq lastMark0 +
      ((burstGo pname (startSeq lastMark0) rq1 mf1 sig1 next fuel1
        0 (startCursor lastMark0)).1.length - 1) := by
    have h := Option.some.inj hL
    rw [← h]
    simp [mkMark]
  have hseq1 := burstGo_sequences pname (startSeq lastMark0) rq1 mf1 sig1 next fuel1
    0 (startCursor lastMark0)
  simp only [Nat.add_zero] at hseq1
  have hseq2 := burstGo_sequences pname (startSeq (some L)) rq2 mf2 sig2 next fuel2
    0 (startCursor (some L))
  simp only [Nat.add_zero] at hseq2
  have hstart2 : startSeq (some L) = startSeq lastMark0 +
      (burstGo pname (startSeq lastMark0) rq1 mf1 sig1 next fuel1
        0 (startCursor lastMark0)).1.length := by
    have hsl : startSeq (some L) = L.sequence + 1 := rfl
    rw [hsl]
    omega
  rw [List.map_append, hseq1, hseq2, hstart2, List.range'_append_1]
  congr 1
  omega

/-- C1 witness: a first burst from no mark is aborted after its first page
(sequence 0), and the resumed burst starting from that mark produces
sequences 1 and 2: the combined sequences are the contiguous range 0, 1, 2,
and the resumed burst starts at sequence 1 with the persisted cursor. -/
theorem c1_marks_contiguous_witness :
    startSeq (some { sequence := 0, cursor := some 10, entities := [wEnt] }) =
      ({ sequence := 0, cursor := some 10, entities := [wEnt] } : MarkRecord Nat).sequence + 1 ∧
    startCursor (some { sequence := 0, cursor := some 10, entities := [wEnt] }) =
      ({ sequence := 0, cursor := some 10, entities := [wEnt] } : MarkRecord Nat).cursor ∧
    startSeq (none : Option (MarkRecord Nat)) = 0 ∧
    (ingestOneBurst "p" none (fun _ => []) (fun _ => false) (fun i => decide (i = 0))
        wNext3 5).1[0]? =
      some (mkMark 0 0 (pageSeq wNext3 none 0)) ∧
    ((ingestOneBurst "p" none (fun _ => []) (fun _ => false) (fun i => decide (i = 0))
        wNext3 5).1 ++
      (ingestOneBurst "p" (some { sequence := 0, cursor := some 10, entities := [wEnt] })
        (fun _ => []) (fun _ => false) (fun _ => false) wNext3 5).1).map
      (fun m => m.sequence) = List.range' 0 3 :=
  c1_marks_contiguous "p" none { sequence := 0, cursor := some 10, entities := [wEnt] }
    (fun _ => []) (fun _ => []) (fun _ => false) (fun _ => false) (fun i => decide (i = 0))
    (fun _ => false) wNext3 5 5 0 (by decide) (by decide) (by decide)

/-- C2: when applying the delta of page `k` to the Target Store fails, the
whole burst fails (`err`): marks for pages 0..k are persisted (the failing
page's mark was written before `applyMutation`), mutations were applied
exactly once for each page before `k` and not for page `k`; the next burst,
resuming from the last successfully persisted mark, starts at sequence
`k + 1` past the original start using page `k`'s cursor, and its applied
mutations are exactly those of the pages after page `k` — so no page is
lost or double-applied beyond the single in-flight page `k`. -/
theorem c2_mutation_failure_resume {κ : Type} (pname : String)
    (lastMark0 : Option (MarkRecord κ))
    (rq1 rq2 : Nat → List DeferredEntity) (sig1 sig2 : Nat → Bool)
    (next : Option κ → Page κ) (fuel1 fuel2 : Nat) (k j j2 : Nat)
    (hf : k < fuel1)
    (hpre : ∀ i, i < k → sig1 i = false ∧
      (pageSeq next (startCursor lastMark0) i).done = false)
    (hj : j < k)
    (hj2 : j2 < (ingestOneBurst pname
        (some (mkMark (startSeq lastMark0) k (pageSeq next (startCursor lastMark0) k)))
        rq2 mf2 sig2 next fuel2).2.1.length) :
    (ingestOneBurst pname lastMark0 rq1 (fun i => decide (i = k)) sig1 next fuel1).2.2
      = .err ∧
    (ingestOneBurst pname lastMark0 rq1 (fun i => decide (i = k)) sig1 next fuel1).1.length
      = k + 1 ∧
    (ingestOneBurst pname lastMark0 rq1 (fun i => decide (i = k)) sig1 next fuel1).2.1.length
      = k ∧
    (ingestOneBurst pname lastMark0 rq1 (fun i => decide (i = k)) sig1 next fuel1).1[k]? =
      some (mkMark (startSeq lastMark0) k (pageSeq next (startCursor lastMark0) k)) ∧
    (ingestOneBurst pname lastMark0 rq1 (fun i => decide (i = k)) sig1 next fuel1).2.1[j]? =
      some (markMutation pname (rq1 j) (pageSeq next (startCursor lastMark0) j).entities
        (pageSeq next (startCursor lastMark0) j).done) ∧
    startSeq (some (mkMark (startSeq lastMark0) k (pageSeq next (startCursor lastMark0) k)))
      = startSeq lastMark0 + k + 1 ∧
    startCursor (some (mkMark (startSeq lastMark0) k (pageSeq next (startCursor lastMark0) k)))
      = (pageSeq next (startCursor lastMark0) k).cursor ∧
    (ingestOneBurst pname
        (some (mkMark (startSeq lastMark0) k (pageSeq next (startCursor lastMark0) k)))
        rq2 mf2 sig2 next fuel2).2.1[j2]? =
      some (markMutation pname (rq2 j2)
        (pageSeq next (startCursor lastMark0) (k + 1 + j2)).entities
        (pageSeq next (startCursor lastMark0) (k + 1 + j2)).done) := by
  have hpre' : ∀ i, i < k → (fun i => decide (i = k)) (0 + i) = false ∧ sig1 (0 + i) = false ∧
      (pageSeq next (startCursor lastMark0) i).done = false := by
    intro i hi
    refine ⟨by simp; omega, ?_, (hpre i hi).2⟩
    simpa using (hpre i hi).1
  have hk : (fun i => decide (i = k)) (0 + k) = true := by simp
  obtain ⟨hres, hm, hmu⟩ := burstGo_err_at pname (startSeq lastMark0) rq1
    (fun i => decide (i = k)) sig1 next k fuel1 0 (startCursor lastMark0) hf hpre' hk
  have hgetk := burstGo_marks_get pname (startSeq lastMark0) rq1 (fun i => decide (i = k))
    sig1 next fuel1 0 (startCursor lastMark0) k (by rw [show (burstGo pname
      (startSeq lastMark0) rq1 (fun i => decide (i = k)) sig1 next fuel1 0
      (startCursor lastMark0)).1.length = k + 1 from hm]; omega)
  simp only [Nat.zero_add] at hgetk
  have hgetj := burstGo_muts_get pname (startSeq lastMark0) rq1 (fun i => decide (i = k))
    sig1 next fuel1 0 (startCursor lastMark0) j (by rw [show (burstGo pname
      (startSeq lastMark0) rq1 (fun i => decide (i = k)) sig1 next fuel1 0
      (startCursor lastMark0)).2.1.length = k from hmu]; omega)
  simp only [Nat.zero_add] at hgetj
  have hgetj2 := burstGo_muts_get pname
    (startSeq (some (mkMark (startSeq lastMark0) k (pageSeq next (startCursor lastMark0) k))))
    rq2 mf2 sig2 next fuel2 0
    (startCursor (some (mkMark (startSeq lastMark0) k (pageSeq next (startCursor lastMark0) k))))
    j2 hj2
  simp only [Nat.zero_add] at hgetj2
  have hshift : ∀ m : Nat, pageSeq next
      (startCursor (some (mkMark (startSeq lastMark0) k (pageSeq next (startCursor lastMark0) k))))
      m = pageSeq next (startCursor lastMark0) (k + 1 + m) := by
    intro m
    rw [pageSeq_add next (startCursor lastMark0) k m]
    rfl
  rw [hshift j2] at hgetj2
  exact ⟨hres, hm, hmu, hgetk, hgetj, rfl, rfl, hgetj2⟩

/-- C2 witness: on a three-page source, failing the mutation of page 1
persists marks 0 and 1, applies only page 0's mutation, fails the burst,
and the resumed burst starts at sequence 2 from page 1's cursor and applies
exactly page 2's mutation. -/
theorem c2_mutation_failure_resume_witness :
    (ingestOneBurst "p" none (fun _ => []) (fun i => decide (i = 1)) (fun _ => false)
        wNext3 5).2.2 = .err ∧
    (ingestOneBurst "p" none (fun _ => []) (fun i => decide (i = 1)) (fun _ => false)
        wNext3 5).1.length = 2 ∧
    (ingestOneBurst "p" none (fun _ => []) (fun i => decide (i = 1)) (fun _ => false)
        wNext3 5).2.1.length = 1 ∧
    (ingestOneBurst "p" none (fun _ => []) (fun i => decide (i = 1)) (fun _ => false)
        wNext3 5).1[1]? = some (mkMark 0 1 (pageSeq wNext3 none 1)) ∧
    (ingestOneBurst "p" none (fun _ => []) (fun i => decide (i = 1)) (fun _ => false)
        wNext3 5).2.1[0]? =
      some (markMutation "p" [] (pageSeq wNext3 none 0).entities
        (pageSeq wNext3 none 0).done) ∧
    startSeq (some (mkMark 0 1 (pageSeq wNext3 none 1))) = 0 + 1 + 1 ∧
    startCursor (some (mkMark 0 1 (pageSeq wNext3 none 1))) = (pageSeq wNext3 none 1).cursor ∧
    (ingestOneBurst "p" (some (mkMark 0 1 (pageSeq wNext3 none 1))) (fun _ => [])
        (fun _ => false) (fun _ => false) wNext3 5).2.1[0]? =
      some (markMutation "p" [] (pageSeq wNext3 none (1 + 1 + 0)).entities
        (pageSeq wNext3 none (1 + 1 + 0)).done) :=
  c2_mutation_failure_resume "p" none (fun _ => []) (fun _ => []) (fun _ => false)
    (fun _ => false) wNext3 5 5 1 0 0 (by decide) (by decide) (by decide) (by decide)

/-- C10: when the abort signal is observed at the check after page `k` of a
burst in which no earlier page was final, page `k`'s mark and mutation are
still fully completed (the check happens after `mark`), the burst returns
page `k`'s done flag (false whenever more pages remain), and the tick then
transitions to interstitial ingest on `done = false` or to rest on
`done = true`, exactly as for an unaborted burst; an aborted signal never
routes the tick to canceling — only a burst error whose message is exactly
`CANCEL` does, while other errors route to backoff. -/
theorem c10_abort_not_cancel {κ : Type} (pname : String) (table : List Nat)
    (restLen now : Nat) (lastMark : Option (MarkRecord κ))
    (removedQ : Nat → List DeferredEntity) (sig : Nat → Bool)
    (next : Option κ → Page κ) (fuel k : Nat) (rec : CurrentAction) (e e' : Err)
    (hf : k < fuel)
    (hpre : ∀ i, i < k → sig i = false ∧
      (pageSeq next (startCursor lastMark) i).done = false)
    (habort : sig k = true)
    (hact : rec.nextAction = "ingest")
    (hnc : e.message ≠ some "CANCEL") (hc : e'.message = some "CANCEL") :
    (ingestOneBurst pname lastMark removedQ (fun _ => false) sig next fuel).2.2 =
      .ok ((pageSeq next (startCursor lastMark) k).done) ∧
    (ingestOneBurst pname lastMark removedQ (fun _ => false) sig next fuel).1.length
      = k + 1 ∧
    (ingestOneBurst pname lastMark removedQ (fun _ => false) sig next fuel).2.1.length
      = k + 1 ∧
    (ingestOneBurst pname lastMark removedQ (fun _ => false) sig next fuel).1[k]? =
      some (mkMark (startSeq lastMark) k (pageSeq next (startCursor lastMark) k)) ∧
    (ingestOneBurst pname lastMark removedQ (fun _ => false) sig next fuel).2.1[k]? =
      some (markMutation pname (removedQ k)
        (pageSeq next (startCursor lastMark) k).entities
        (pageSeq next (startCursor lastMark) k).done) ∧
    handleNextAction table restLen pname rec now (.ok false) =
      [.setProviderBursting rec.ingestionId, .setProviderInterstitial rec.ingestionId] ∧
    handleNextAction table restLen pname rec now (.ok true) =
      [.setProviderBursting rec.ingestionId, .setProviderResting rec.ingestionId restLen] ∧
    handleNextAction table restLen pname rec now (.error e) =
      [.setProviderBursting rec.ingestionId,
       .setProviderBackoff rec.ingestionId rec.attempts e (backoffDelay table rec.attempts)] ∧
    handleNextAction table restLen pname rec now (.error e') =
      [.setProviderBursting rec.ingestionId, .setProviderCanceling rec.ingestionId "CANCEL"] := by
  have hpre' : ∀ i, i < k → (fun _ : Nat => false) (0 + i) = false ∧ sig (0 + i) = false ∧
      (pageSeq next (startCursor lastMark) i).done = false := by
    intro i hi
    exact ⟨rfl, by simpa using (hpre i hi).1, (hpre i hi).2⟩
  have hstop : (sig (0 + k) || (pageSeq next (startCursor lastMark) k).done) = true := by
    simp [habort]
  obtain ⟨hres, hm, hmu⟩ := burstGo_stop_at pname (startSeq lastMark) removedQ
    (fun _ => false) sig next k fuel 0 (startCursor lastMark) hf hpre' rfl hstop
  have hgetk := burstGo_marks_get pname (startSeq lastMark) removedQ (fun _ => false)
    sig next fuel 0 (startCursor lastMark) k (by rw [show (burstGo pname
      (startSeq lastMark) removedQ (fun _ => false) sig next fuel 0
      (startCursor lastMark)).1.length = k + 1 from hm]; omega)
  simp only [Nat.zero_add] at hgetk
  have hgetmu := burstGo_muts_get pname (startSeq lastMark) removedQ (fun _ => false)
    sig next fuel 0 (startCursor lastMark) k (by rw [show (burstGo pname
      (startSeq lastMark) removedQ (fun _ => false) sig next fuel 0
      (startCursor lastMark)).2.1.length = k + 1 from hmu]; omega)
  simp only [Nat.zero_add] at hgetmu
  exact ⟨hres, hm, hmu, hgetk, hgetmu,
    by simp [handleNextAction, hact],
    by simp [handleNextAction, hact],
    by simp [handleNextAction, hact, hnc],
    by simp [handleNextAction, hact, hc]⟩

/-- C10 witness: aborting at the check after page 1 of the three-page
source still persists page 1's mark and applies its mutation, returns
done = false, and routes the tick to interstitial ingest — not to
canceling, which only the literal `CANCEL` error message triggers. -/
theorem c10_abort_not_cancel_witness :
    (ingestOneBurst "p" none (fun _ => [wRm]) (fun _ => false) (fun i => decide (i = 1))
        wNext3 5).2.2 = .ok ((pageSeq wNext3 none 1).done) ∧
    (ingestOneBurst "p" none (fun _ => [wRm]) (fun _ => false) (fun i => decide (i = 1))
        wNext3 5).1.length = 2 ∧
    (ingestOneBurst "p" none (fun _ => [wRm]) (fun _ => false) (fun i => decide (i = 1))
        wNext3 5).2.1.length = 2 ∧
    (ingestOneBurst "p" none (fun _ => [wRm]) (fun _ => false) (fun i => decide (i = 1))
        wNext3 5).1[1]? = some (mkMark 0 1 (pageSeq wNext3 none 1)) ∧
    (ingestOneBurst "p" none (fun _ => [wRm]) (fun _ => false) (fun i => decide (i = 1))
        wNext3 5).2.1[1]? =
      some (markMutation "p" [wRm] (pageSeq wNext3 none 1).entities
        (pageSeq wNext3 none 1).done) ∧
    handleNextAction defaultBackoff 1000 "p"
        { ingestionId := "i", nextAction := "ingest", attempts := 0, nextActionAt := 0 } 5
        (.ok false) = [.setProviderBursting "i", .setProviderInterstitial "i"] ∧
    handleNextAction defaultBackoff 1000 "p"
        { ingestionId := "i", nextAction := "ingest", attempts := 0, nextActionAt := 0 } 5
        (.ok true) = [.setProviderBursting "i", .setProviderResting "i" 1000] ∧
    handleNextAction defaultBackoff 1000 "p"
        { ingestionId := "i", nextAction := "ingest", attempts := 0, nextActionAt := 0 } 5
        (.error { name := "Error", message := some "boom" }) =
      [.setProviderBursting "i",
       .setProviderBackoff "i" 0 { name := "Error", message := some "boom" } 60000] ∧
    handleNextAction defaultBackoff 1000 "p"
        { ingestionId := "i", nextAction := "ingest", attempts := 0, nextActionAt := 0 } 5
        (.error { name := "Error", message := some "CANCEL" }) =
      [.setProviderBursting "i", .setProviderCanceling "i" "CANCEL"] :=
  c10_abort_not_cancel "p" defaultBackoff 1000 5 none (fun _ => [wRm])
    (fun i => decide (i = 1)) wNext3 5 1
    { ingestionId := "i", nextAction := "ingest", attempts := 0, nextActionAt := 0 }
    { name := "Error", message := some "boom" } { name := "Error", message := some "CANCEL" }
    (by decide) (by decide) (by decide) rfl (by decide) rfl

end IncrementalEngine
